import Mathlib

/-!
Shallow embedding of the lane-generation and lane-simulation core of
`src/crossy.py` (classes `Car`, `Lane`, `World`), together with theorems
settling the specification claims about it.

Modelling conventions:
* Python floats are modelled as rationals (`ℚ`).
* Python's Mersenne-Twister `random.Random(seed)` is modelled as a
  deterministic stream generated by a 64-bit linear congruential step from
  the seed.  The model preserves the contracts the claims rely on:
  determinism (the stream is a pure function of the seed), the value range
  of each draw (`randint a b` lands in `[a, b]`, `random()` lands in
  `[0, 1)`), and the number/order of draws consumed by each operation.
* Python's unbounded while loop placing cars is modelled with fuel; the
  placement cursor grows by more than two tiles per iteration, so the fuel
  of 100 is never exhausted on the coordinate ranges the program uses.
* The row→Lane dictionary is modelled as a function `ℤ → Option Lane`.
-/

namespace Crossy

/-! ### Constants from the top of src/crossy.py -/

def TILE : ℤ := 48
def COLS : ℕ := 9
def ROWS_VISIBLE : ℤ := 12
def WIDTH : ℤ := (COLS : ℤ) * TILE
def HEIGHT : ℤ := ROWS_VISIBLE * TILE
def TREE_CHANCE : ℚ := 18/100
def SAFE_START_ROWS : ℤ := 6
def ROAD_EVERY_APPROX : ℤ := 5
def ROAD_JITTER : ℤ := 2
def ROAD_SEGMENT_MIN : ℤ := 1
def ROAD_SEGMENT_MAX : ℤ := 3
def CAR_SPEED_MIN : ℚ := 60
def CAR_SPEED_MAX : ℚ := 140
def CAR_GAP_MIN_TILES : ℚ := 12/10
def CAR_GAP_MAX_TILES : ℚ := 3
def CAR_LEN_MIN : ℤ := 1
def CAR_LEN_MAX : ℤ := 2
def PATH_WIGGLE_CHANCE : ℚ := 6/10

/-- Python's `clamp` helper (used with rational arguments). -/
def clamp (v lo hi : ℚ) : ℚ := if v < lo then lo else if v > hi then hi else v

/-- Python's `clamp` helper at integer type (used for the path column). -/
def iclamp (v lo hi : ℤ) : ℤ := if v < lo then lo else if v > hi then hi else v

/-- Python's `lerp` helper. -/
def lerp (a b t : ℚ) : ℚ := a + (b - a) * t

/-! ### Deterministic RNG model for `random.Random` -/

/-- One 64-bit LCG step; stands in for the Mersenne-Twister state update. -/
def rngStep (s : ℕ) : ℕ :=
  (6364136223846793005 * s + 1442695040888963407) % 18446744073709551616

structure RNG where
  state : ℕ
deriving DecidableEq

/-- `random.Random(seed)`. -/
def mkRNG (seed : ℕ) : RNG := ⟨seed % 18446744073709551616⟩

/-- Draw one raw 64-bit value and advance the stream. -/
def RNG.next (g : RNG) : ℕ × RNG := (rngStep g.state, ⟨rngStep g.state⟩)

/-- `rng.random()`: a rational in `[0, 1)`. -/
def RNG.randFloat (g : RNG) : ℚ × RNG :=
  let p := g.next
  (((p.1 % 1000000 : ℕ) : ℚ) / 1000000, p.2)

/-- `rng.randint(a, b)`: inclusive on both ends (for `a ≤ b`). -/
def RNG.randint (g : RNG) (a b : ℤ) : ℤ × RNG :=
  let p := g.next
  (a + (p.1 : ℤ) % (b - a + 1), p.2)

/-- `rng.uniform(a, b)`. -/
def RNG.uniform (g : RNG) (a b : ℚ) : ℚ × RNG :=
  let p := g.randFloat
  (a + (b - a) * p.1, p.2)

/-- `rng.choice([-1, 1])`. -/
def RNG.choiceSign (g : RNG) : ℤ × RNG :=
  let p := g.next
  (if p.1 % 2 = 0 then -1 else 1, p.2)

/-- `rng.choice([-1, 0, 1])`. -/
def RNG.choiceStep (g : RNG) : ℤ × RNG :=
  let p := g.next
  (if p.1 % 3 = 0 then -1 else if p.1 % 3 = 1 then 0 else 1, p.2)

/-- Fisher-Yates loop of `rng.shuffle`, from index `i` down to 1. -/
def shuffleGo (g : RNG) (l : List ℕ) : ℕ → List ℕ × RNG
  | 0 => (l, g)
  | i+1 =>
    let p := g.next
    let j := p.1 % (i + 2)
    let a := l.getD (i+1) 0
    let b := l.getD j 0
    shuffleGo p.2 ((l.set (i+1) b).set j a) i

/-- `rng.shuffle(l)`. -/
def RNG.shuffle (g : RNG) (l : List ℕ) : List ℕ × RNG :=
  shuffleGo g l (l.length - 1)

/-! ### Car (`class Car`) -/

structure Car where
  x : ℚ
  w : ℚ
  speed : ℚ
  dir : ℤ
deriving DecidableEq

/-- `Car.update`: advance by `dir * speed * dt`, then wrap past the screen
bounds plus a two-tile buffer. -/
def Car.update (c : Car) (dt : ℚ) : Car :=
  let x1 := c.x + (c.dir : ℚ) * c.speed * dt
  if c.dir = 1 ∧ x1 > (WIDTH : ℚ) + 2 * (TILE : ℚ) then
    { c with x := -c.w - 2 * (TILE : ℚ) }
  else if c.dir = -1 ∧ x1 < -c.w - 2 * (TILE : ℚ) then
    { c with x := (WIDTH : ℚ) + 2 * (TILE : ℚ) }
  else
    { c with x := x1 }

/-! ### Lane (`class Lane`) -/

structure Lane where
  row : ℤ
  kind : String
  cols : ℕ
  blocked : List Bool
  cars : List Car
deriving DecidableEq

/-- Seed mixing `(row * 1000003) ^ KIND_CONSTANT` from `World._make_lane`
(Python's signed xor is modelled on the magnitude of the product). -/
def seedFor (row : ℤ) (kindConst : ℕ) : ℕ := (row * 1000003).natAbs ^^^ kindConst

/-- Blocked-bitmap loop of the grass branch of `Lane.__init__`: one entry
per column `c`; the guaranteed-open column consumes no draw, every other
column draws a Bernoulli trial with probability `TREE_CHANCE`. -/
def grassGo (g : RNG) (guaranteed : ℕ) : ℕ → ℕ → List Bool × RNG
  | _, 0 => ([], g)
  | c, n+1 =>
    if c = guaranteed then
      let p := grassGo g guaranteed (c+1) n
      (false :: p.1, p.2)
    else
      let f := g.randFloat
      let p := grassGo f.2 guaranteed (c+1) n
      (decide (f.1 < TREE_CHANCE) :: p.1, p.2)

/-- Car-placement while loop of the road branch of `Lane.__init__`
(fuel-bounded; the cursor advances by more than two tiles per step). -/
def carLoop (g : RNG) (x speed : ℚ) (dir : ℤ) : ℕ → List Car
  | 0 => []
  | fuel+1 =>
    if x < (WIDTH : ℚ) + 3 * (TILE : ℚ) then
      let pl := g.randint CAR_LEN_MIN CAR_LEN_MAX
      let car : Car := ⟨x, (pl.1 : ℚ) * (TILE : ℚ), speed, dir⟩
      let pg := pl.2.uniform CAR_GAP_MIN_TILES CAR_GAP_MAX_TILES
      car :: carLoop pg.2 (x + (pl.1 : ℚ) * (TILE : ℚ) + pg.1 * (TILE : ℚ)) speed dir fuel
    else []

/-- `Lane.__init__`. -/
def mkLane (row : ℤ) (cols : ℕ) (kind : String) (seed : ℕ) (forced : Option ℤ) : Lane :=
  let g := mkRNG seed
  if kind = "grass" then
    let sh := g.shuffle (List.range cols)
    let guaranteed := sh.1.headD 0
    let gb := grassGo sh.2 guaranteed 0 cols
    let blocked :=
      match forced with
      | some c => if 0 ≤ c ∧ c < (cols : ℤ) then gb.1.set c.toNat false else gb.1
      | none => gb.1
    ⟨row, kind, cols, blocked, []⟩
  else if kind = "road" then
    let pd := g.choiceSign
    let difficulty := clamp ((row : ℚ) / 60) 0 1
    let base := lerp CAR_SPEED_MIN CAR_SPEED_MAX difficulty
    let pu := pd.2.uniform (85/100) (115/100)
    let speed := base * pu.1
    let px := pu.2.uniform (-2 * (TILE : ℚ)) (2 * (TILE : ℚ))
    ⟨row, kind, cols, List.replicate cols false, carLoop px.2 px.1 speed pd.1 100⟩
  else
    ⟨row, kind, cols, List.replicate cols false, []⟩

/-- `Lane.is_blocked`. -/
def Lane.is_blocked (L : Lane) (col : ℤ) : Bool :=
  if L.kind ≠ "grass" then false
  else if 0 ≤ col ∧ col < (L.blocked.length : ℤ) then L.blocked.getD col.toNat true
  else true

/-- `Lane.update`. -/
def Lane.update (L : Lane) (dt : ℚ) : Lane :=
  if L.kind = "road" then { L with cars := L.cars.map (fun c => c.update dt) } else L

/-! ### World (`class World`) -/

structure World where
  cols : ℕ
  lanes : ℤ → Option Lane
  generated_max : ℤ
  next_road_start : ℤ
  road_remaining : ℤ
  rng : RNG
  path_col : ℤ

/-- `World._schedule_next_road_start`. -/
def scheduleNext (w : World) (current_row : ℤ) : World :=
  let p := w.rng.randint (-ROAD_JITTER) ROAD_JITTER
  let delta := max 2 (ROAD_EVERY_APPROX + p.1)
  let nrs := current_row + delta
  { w with rng := p.2,
           next_road_start := if nrs < SAFE_START_ROWS then SAFE_START_ROWS else nrs }

/-- `World.__init__`. -/
def mkWorld (cols : ℕ) : World :=
  scheduleNext
    { cols := cols, lanes := fun _ => none, generated_max := -999999,
      next_road_start := 999999, road_remaining := 0, rng := mkRNG 1337,
      path_col := (cols : ℤ) / 2 }
    (SAFE_START_ROWS - 1)

/-- `World._maybe_wiggle_path`. -/
def maybeWiggle (w : World) : World :=
  let f := w.rng.randFloat
  if f.1 < PATH_WIGGLE_CHANCE then
    let p := f.2.choiceStep
    { w with rng := p.2, path_col := iclamp (w.path_col + p.1) 0 ((w.cols : ℤ) - 1) }
  else
    { w with rng := f.2 }

/-- `World._make_lane`: returns the post-call world state and the new lane. -/
def mkLaneW (w : World) (row : ℤ) : World × Lane :=
  if row < SAFE_START_ROWS then
    (w, mkLane row w.cols "grass" (seedFor row 0x123456) (some w.path_col))
  else if 0 < w.road_remaining then
    ({ w with road_remaining := w.road_remaining - 1 },
     mkLane row w.cols "road" (seedFor row 0xABCDEF) none)
  else if w.next_road_start ≤ row then
    let pl := w.rng.randint ROAD_SEGMENT_MIN ROAD_SEGMENT_MAX
    let w1 := scheduleNext { w with rng := pl.2, road_remaining := pl.1 - 1 } row
    (w1, mkLane row w.cols "road" (seedFor row 0xABCDEF) none)
  else
    let w1 := maybeWiggle w
    (w1, mkLane row w1.cols "grass" (seedFor row 0x123456) (some w1.path_col))

/-- Reset branch at the top of `World.ensure_range` (the body of the
`if self.generated_max < row_min - 50` conditional). -/
def resetWorld (w : World) (row_min : ℤ) : World :=
  scheduleNext
    { w with generated_max := row_min - 1, next_road_start := 999999,
             road_remaining := 0, rng := mkRNG 1337, path_col := (w.cols : ℤ) / 2 }
    (SAFE_START_ROWS - 1)

/-- Sequential generation loop of `ensure_range`: `n` iterations starting at
row `r`; skips rows already present and raises `generated_max` each step. -/
def genLoop : World → ℤ → ℕ → World
  | w, _, 0 => w
  | w, r, Nat.succ n =>
    let w1 :=
      if (w.lanes r).isSome then w
      else
        let p := mkLaneW w r
        { p.1 with lanes := fun j => if j = r then some p.2 else p.1.lanes j }
    genLoop { w1 with generated_max := max w1.generated_max r } (r + 1) n

/-- Backfill loop of `ensure_range`: `n` iterations starting at row `r`;
any still-missing row becomes a plain grass lane forced open at the
current path column, bypassing the scheduler. -/
def backfillLoop : World → ℤ → ℕ → World
  | w, _, 0 => w
  | w, r, Nat.succ n =>
    let w1 :=
      if (w.lanes r).isSome then w
      else
        let L := mkLane r w.cols "grass" (seedFor r 0x123456) (some w.path_col)
        { w with lanes := fun j => if j = r then some L else w.lanes j }
    backfillLoop w1 (r + 1) n

/-- Steps 2-4 of `World.ensure_range` (everything after the reset check):
sequential generation, backfill, then eviction outside
`[row_min - 2, row_max + 2]`. -/
def World.ensureRangeFrom (w : World) (row_min row_max : ℤ) : World :=
  let start := max (w.generated_max + 1) row_min
  let w1 := genLoop w start (row_max + 1 - start).toNat
  let w2 := backfillLoop w1 row_min (min row_max w1.generated_max + 1 - row_min).toNat
  { w2 with lanes := fun r =>
      if row_min - 2 ≤ r ∧ r ≤ row_max + 2 then w2.lanes r else none }

/-- `World.ensure_range`. -/
def World.ensureRange (w : World) (row_min row_max : ℤ) : World :=
  let w0 := if w.generated_max < row_min - 50 then resetWorld w row_min else w
  w0.ensureRangeFrom row_min row_max

/-- `World.get_lane`. -/
def World.get_lane (w : World) (row : ℤ) : Option Lane := w.lanes row

/-- `world_row_to_screen_y`. -/
def rowToScreenY (row camera_y : ℚ) : ℚ :=
  (HEIGHT : ℚ) - (row + 1) * (TILE : ℚ) + camera_y

/-- The visibility filter of `World.update` / `World.draw`: a lane is
skipped when its screen y is above or below the visible band. -/
def visibleRow (row : ℤ) (camera_y : ℚ) : Bool :=
  let y := rowToScreenY (row : ℚ) camera_y
  decide (¬(y > (HEIGHT : ℚ) + (TILE : ℚ) ∨ y < -(TILE : ℚ)))

/-- `World.update`: advances only the lanes inside the visible band. -/
def World.update (w : World) (dt camera_y : ℚ) : World :=
  { w with lanes := fun r =>
      (w.lanes r).map (fun L => if visibleRow L.row camera_y then L.update dt else L) }

/-- Kind of the materialized lane at a row, if any. -/
def kindAt (w : World) (r : ℤ) : Option String := (w.lanes r).map Lane.kind

/-! ### Helper lemmas -/

theorem RNG.randint_mem (g : RNG) (a b : ℤ) (h : a ≤ b) :
    a ≤ (g.randint a b).1 ∧ (g.randint a b).1 ≤ b := by
  have h0 : ((g.next.1 : ℤ)) % (b - a + 1) ≥ 0 :=
    Int.emod_nonneg _ (by omega)
  have h1 : ((g.next.1 : ℤ)) % (b - a + 1) < b - a + 1 :=
    Int.emod_lt_of_pos _ (by omega)
  simp only [RNG.randint]
  omega

theorem iclamp_mem (v lo hi : ℤ) (h : lo ≤ hi) :
    lo ≤ iclamp v lo hi ∧ iclamp v lo hi ≤ hi := by
  unfold iclamp
  split_ifs <;> omega

theorem grassGo_length (guaranteed : ℕ) :
    ∀ n (g : RNG) (c : ℕ), (grassGo g guaranteed c n).1.length = n := by
  intro n
  induction n with
  | zero => intro g c; rfl
  | succ n ih =>
    intro g c
    unfold grassGo
    by_cases hc : c = guaranteed
    · simp [hc, ih]
    · simp [hc, ih]

theorem mkLane_kind (row : ℤ) (cols : ℕ) (k : String) (s : ℕ) (f : Option ℤ) :
    (mkLane row cols k s f).kind = k := by
  unfold mkLane
  split_ifs <;> rfl

theorem mkLane_blocked_length (row : ℤ) (cols : ℕ) (k : String) (s : ℕ) (f : Option ℤ) :
    (mkLane row cols k s f).blocked.length = cols := by
  unfold mkLane
  split_ifs with h1 h2
  · cases f with
    | none => simp [grassGo_length]
    | some c =>
      by_cases hc : 0 ≤ c ∧ c < (cols : ℤ)
      · simp [hc, List.length_set, grassGo_length]
      · simp [hc, grassGo_length]
  · simp
  · simp

theorem mkLane_grass_blocked (row : ℤ) (cols : ℕ) (s : ℕ) (c : ℤ)
    (hrange : 0 ≤ c ∧ c < (cols : ℤ)) :
    (mkLane row cols "grass" s (some c)).blocked
      = ((grassGo ((mkRNG s).shuffle (List.range cols)).2
          (((mkRNG s).shuffle (List.range cols)).1.headD 0) 0 cols).1).set c.toNat false := by
  unfold mkLane
  simp only [if_pos rfl]
  simp only [hrange, and_self, if_true]

theorem mkLane_forced_open (row : ℤ) (cols : ℕ) (s : ℕ) (c : ℤ)
    (h0 : 0 ≤ c) (hc : c < (cols : ℤ)) :
    (mkLane row cols "grass" s (some c)).is_blocked c = false := by
  have hck : c.toNat < cols := by omega
  unfold Lane.is_blocked
  rw [mkLane_kind, mkLane_blocked_length, if_neg (by simp), if_pos ⟨h0, hc⟩,
    mkLane_grass_blocked row cols s c ⟨h0, hc⟩]
  have hlen : ((grassGo ((mkRNG s).shuffle (List.range cols)).2
      (((mkRNG s).shuffle (List.range cols)).1.headD 0) 0 cols).1).length = cols :=
    grassGo_length _ _ _ _
  have h2 : c.toNat <
      (((grassGo ((mkRNG s).shuffle (List.range cols)).2
        (((mkRNG s).shuffle (List.range cols)).1.headD 0) 0 cols).1).set c.toNat false).length := by
    rw [List.length_set, hlen]
    exact hck
  rw [List.getD_eq_getElem _ _ h2]
  exact List.getElem_set_self h2

theorem maybeWiggle_lanes (w : World) : (maybeWiggle w).lanes = w.lanes := by
  simp only [maybeWiggle]
  split <;> rfl

theorem maybeWiggle_generated_max (w : World) :
    (maybeWiggle w).generated_max = w.generated_max := by
  simp only [maybeWiggle]
  split <;> rfl

theorem maybeWiggle_cols (w : World) : (maybeWiggle w).cols = w.cols := by
  simp only [maybeWiggle]
  split <;> rfl

theorem mkLaneW_lanes (w : World) (row : ℤ) : (mkLaneW w row).1.lanes = w.lanes := by
  simp only [mkLaneW]
  split_ifs <;> simp only [scheduleNext, maybeWiggle_lanes]

theorem mkLaneW_generated_max (w : World) (row : ℤ) :
    (mkLaneW w row).1.generated_max = w.generated_max := by
  simp only [mkLaneW]
  split_ifs <;> simp only [scheduleNext, maybeWiggle_generated_max]

theorem mkLaneW_cols (w : World) (row : ℤ) : (mkLaneW w row).1.cols = w.cols := by
  simp only [mkLaneW]
  split_ifs <;> simp only [scheduleNext, maybeWiggle_cols]

/-! ### Claim C7: vehicle wrap keeps positions in the band -/

/-- C7: a right-moving vehicle whose leading position passes
`WIDTH + 2*TILE` is relocated to `-w - 2*TILE` and symmetrically for
left-moving vehicles; hence any vehicle with direction `±1`, nonnegative
speed and nonnegative width whose position lies in
`[-w - 2*TILE, WIDTH + 2*TILE]` stays in that band after one update with
any nonnegative `dt`. -/
theorem car_update_stays_in_band (c : Car) (dt : ℚ)
    (hdir : c.dir = 1 ∨ c.dir = -1) (hspeed : 0 ≤ c.speed) (hw : 0 ≤ c.w)
    (hdt : 0 ≤ dt) (hlo : -c.w - 2 * (TILE : ℚ) ≤ c.x)
    (hhi : c.x ≤ (WIDTH : ℚ) + 2 * (TILE : ℚ)) :
    -c.w - 2 * (TILE : ℚ) ≤ (c.update dt).x
      ∧ (c.update dt).x ≤ (WIDTH : ℚ) + 2 * (TILE : ℚ) := by
  have hW : (WIDTH : ℚ) = 432 := by norm_num [WIDTH, COLS, TILE]
  have hT : (TILE : ℚ) = 48 := by norm_num [TILE]
  have hsd : 0 ≤ c.speed * dt := mul_nonneg hspeed hdt
  simp only [Car.update]
  rcases hdir with h1 | h1 <;> rw [h1] <;>
    simp only [Int.cast_one, Int.cast_neg, one_mul, neg_mul,
      show ((1 : ℤ) = -1) = False by simp, show ((-1 : ℤ) = 1) = False by simp,
      show ((1 : ℤ) = 1) = True by simp, show ((-1 : ℤ) = -1) = True by simp,
      true_and, false_and, if_false] <;>
    split_ifs with h <;> constructor <;> dsimp only <;> linarith

/-- Witness for C7 at the concrete car `x = 0, w = 48, speed = 100, dir = 1`
with `dt = 1`. -/
theorem car_update_stays_in_band_witness :
    -(48 : ℚ) - 2 * (TILE : ℚ) ≤ ((⟨0, 48, 100, 1⟩ : Car).update 1).x
      ∧ ((⟨0, 48, 100, 1⟩ : Car).update 1).x ≤ (WIDTH : ℚ) + 2 * (TILE : ℚ) :=
  car_update_stays_in_band ⟨0, 48, 100, 1⟩ 1 (Or.inl rfl) (by norm_num)
    (by norm_num) (by norm_num) (by norm_num [TILE])
    (by norm_num [WIDTH, COLS, TILE])

/-! ### Claim C8: out-of-range column queries -/

/-- C8 (amended): on a grass lane every out-of-range column reads as
blocked (fail-closed), while on a lane of any other kind `is_blocked` is
false for every column, in range or not. -/
theorem is_blocked_out_of_range (row : ℤ) (cols : ℕ) (k : String) (s : ℕ)
    (f : Option ℤ) (col : ℤ) (hcol : col < 0 ∨ (cols : ℤ) ≤ col) :
    (k = "grass" → (mkLane row cols k s f).is_blocked col = true)
      ∧ (k ≠ "grass" → (mkLane row cols k s f).is_blocked col = false) := by
  unfold Lane.is_blocked
  rw [mkLane_kind, mkLane_blocked_length]
  constructor
  · intro hk
    rw [if_neg (by simp [hk]), if_neg (by omega)]
  · intro hk
    rw [if_pos hk]

/-- Witness for C8 (amended) at a concrete grass lane and column 99. -/
theorem is_blocked_out_of_range_witness :
    (mkLane 0 9 "grass" (seedFor 0 0x123456) none).is_blocked 99 = true :=
  (is_blocked_out_of_range 0 9 "grass" (seedFor 0 0x123456) none 99 (by omega)).1 rfl

/-- A world state about to materialize a road lane at row 10. -/
def cex8World : World :=
  { cols := 9, lanes := fun _ => none, generated_max := 20,
    next_road_start := 999, road_remaining := 1, rng := ⟨7⟩, path_col := 4 }

/-- C8 counterexample: the road lane the world materializes at row 10
answers `is_blocked` with `false` for out-of-range columns `-1` and `99`,
not with the fail-closed `true` the claim asserts for lanes of either
terrain kind. -/
theorem road_out_of_range_not_blocked_cex :
    (mkLaneW cex8World 10).2.kind = "road"
      ∧ (mkLaneW cex8World 10).2.is_blocked (-1) = false
      ∧ (mkLaneW cex8World 10).2.is_blocked 99 = false :=
  ⟨rfl, rfl, rfl⟩

/-! ### Claim C1: scheduler-produced grass lanes are traversable -/

theorem maybeWiggle_path_mem (w : World) (h0 : 0 ≤ w.path_col)
    (hc : w.path_col < (w.cols : ℤ)) :
    0 ≤ (maybeWiggle w).path_col ∧ (maybeWiggle w).path_col < (w.cols : ℤ) := by
  simp only [maybeWiggle]
  split
  · have := iclamp_mem (w.path_col + (w.rng.randFloat.2.choiceStep).1) 0
      ((w.cols : ℤ) - 1) (by omega)
    constructor <;> simp only <;> omega
  · exact ⟨h0, hc⟩

/-- C1: whenever `_make_lane` produces a grass lane (safe-start rows and
scheduler-decided open rows alike, as opposed to the backfill fallback in
`ensure_range`), the lane is not blocked at the forced-open column it was
generated with, which is the world's path column after the call. -/
theorem scheduler_grass_lane_traversable (w : World) (row : ℤ)
    (h0 : 0 ≤ w.path_col) (hc : w.path_col < (w.cols : ℤ))
    (hk : (mkLaneW w row).2.kind = "grass") :
    (mkLaneW w row).2.is_blocked ((mkLaneW w row).1.path_col) = false := by
  simp only [mkLaneW] at hk ⊢
  split_ifs at hk ⊢ with h1 h2 h3
  · exact mkLane_forced_open row w.cols _ w.path_col h0 hc
  · rw [mkLane_kind] at hk
    exact absurd hk (by decide)
  · dsimp only at hk
    rw [mkLane_kind] at hk
    exact absurd hk (by decide)
  · dsimp only
    have hm := maybeWiggle_path_mem w h0 hc
    have hcols := maybeWiggle_cols w
    exact mkLane_forced_open row (maybeWiggle w).cols _ (maybeWiggle w).path_col
      hm.1 (by rw [hcols]; exact hm.2)

/-- Witness for C1: the world right after `World(9)`, at row 0. -/
theorem scheduler_grass_lane_traversable_witness :
    (mkLaneW (mkWorld 9) 0).2.is_blocked ((mkLaneW (mkWorld 9) 0).1.path_col)
      = false :=
  scheduler_grass_lane_traversable (mkWorld 9) 0 (by decide) (by decide) (by decide)

/-! ### Claim C4: determinism of lane content -/

theorem mkLaneW_grass_eq (w : World) (row : ℤ)
    (hk : (mkLaneW w row).2.kind = "grass") :
    (mkLaneW w row).2
      = mkLane row w.cols "grass" (seedFor row 0x123456)
          (some ((mkLaneW w row).1.path_col)) := by
  simp only [mkLaneW] at hk ⊢
  split_ifs at hk ⊢ with h1 h2 h3
  · rfl
  · rw [mkLane_kind] at hk
    exact absurd hk (by decide)
  · dsimp only at hk
    rw [mkLane_kind] at hk
    exact absurd hk (by decide)
  · dsimp only
    rw [maybeWiggle_cols]

theorem mkLaneW_road_eq (w : World) (row : ℤ)
    (hk : (mkLaneW w row).2.kind = "road") :
    (mkLaneW w row).2 = mkLane row w.cols "road" (seedFor row 0xABCDEF) none := by
  simp only [mkLaneW] at hk ⊢
  split_ifs at hk ⊢ with h1 h2 h3
  · rw [mkLane_kind] at hk
    exact absurd hk (by decide)
  · rfl
  · dsimp only
  · dsimp only at hk
    rw [mkLane_kind] at hk
    exact absurd hk (by decide)

/-- C4 (amended): road-lane content produced by `_make_lane` is a function
of the row and the column count alone — it is identical across any two
world states — while grass-lane content is a function of the row, the
column count and the forced-open path column at generation time. -/
theorem lane_content_determined (w1 w2 : World) (r : ℤ) (hc : w1.cols = w2.cols) :
    ((mkLaneW w1 r).2.kind = "road" → (mkLaneW w2 r).2.kind = "road" →
        (mkLaneW w1 r).2 = (mkLaneW w2 r).2)
      ∧ ((mkLaneW w1 r).2.kind = "grass" → (mkLaneW w2 r).2.kind = "grass" →
          (mkLaneW w1 r).1.path_col = (mkLaneW w2 r).1.path_col →
          (mkLaneW w1 r).2 = (mkLaneW w2 r).2) := by
  constructor
  · intro k1 k2
    rw [mkLaneW_road_eq w1 r k1, mkLaneW_road_eq w2 r k2, hc]
  · intro k1 k2 hp
    rw [mkLaneW_grass_eq w1 r k1, mkLaneW_grass_eq w2 r k2, hc, hp]

/-- A world equal to `World(9)` except for its rng and generation point:
used to witness that lane content does not depend on them. -/
def wit4World : World := { mkWorld 9 with rng := ⟨99⟩, generated_max := 50 }

/-- Witness for C4 (amended): two worlds differing in rng state and
generation point produce the same grass lane at row 0. -/
theorem lane_content_determined_witness :
    (mkLaneW (mkWorld 9) 0).2 = (mkLaneW wit4World 0).2 :=
  (lane_content_determined (mkWorld 9) wit4World 0 rfl).2 (by decide) (by decide) rfl

/-- A world equal to `World(9)` except that its path column is 0. -/
def cex4World : World := { mkWorld 9 with path_col := 0 }

theorem getD_set_four_zero (l : List Bool) (h : l.length = 9) :
    (l.set 4 false).getD 0 true = l.getD 0 true := by
  have h1 : (0:ℕ) < (l.set 4 false).length := by simp [h]
  have h2 : (0:ℕ) < l.length := by omega
  rw [List.getD_eq_getElem _ _ h1, List.getD_eq_getElem _ _ h2]
  exact List.getElem_set_ne (show (4:ℕ) ≠ 0 by omega) h1

/-- C4 counterexample: the grass lane materialized at row 0 depends on the
path column the world carries at generation time, so lane content is not a
function of row index and kind alone: generated with path column 0 the
lane is open at column 0, generated with the initial path column 4 it is
blocked there. -/
theorem lane_content_forced_col_cex :
    (mkLaneW cex4World 0).2.kind = "grass"
      ∧ (mkLaneW (mkWorld 9) 0).2.kind = "grass"
      ∧ (mkLaneW cex4World 0).2.is_blocked 0 = false
      ∧ (mkLaneW (mkWorld 9) 0).2.is_blocked 0 = true := by
  refine ⟨rfl, rfl, ?_, ?_⟩
  · rw [show (mkLaneW cex4World 0).2 = mkLane 0 9 "grass" 1193046 (some 0) from rfl]
    exact mkLane_forced_open 0 9 1193046 0 (by omega) (by omega)
  · rw [show (mkLaneW (mkWorld 9) 0).2 = mkLane 0 9 "grass" 1193046 (some 4) from rfl]
    unfold Lane.is_blocked
    rw [mkLane_kind, mkLane_blocked_length, if_neg (by simp), if_pos (by omega),
      mkLane_grass_blocked 0 9 1193046 4 (by omega),
      show ((4:ℤ).toNat) = 4 from rfl, show ((0:ℤ).toNat) = 0 from rfl,
      getD_set_four_zero _ (grassGo_length _ _ _ _),
      show ((mkRNG 1193046).shuffle (List.range 9)).2
        = (⟨14498810748050711486⟩ : RNG) from rfl,
      show ((mkRNG 1193046).shuffle (List.range 9)).1.headD 0 = 1 from rfl,
      grassGo, if_neg (by decide), List.getD_cons_zero,
      show (⟨14498810748050711486⟩ : RNG).randFloat.1
        = ((74037 : ℕ) : ℚ) / 1000000 from rfl]
    simp only [decide_eq_true_eq]
    norm_num [TREE_CHANCE]

/-! ### Claim C9: per-tick advance touches only the visible band -/

/-- C9 (amended): `World.update` advances exactly the materialized lanes
whose screen position is inside the visible band: a visible lane is
replaced by its `Lane.update`, a lane outside the band is left untouched;
on a road lane `Lane.update` maps every car through `Car.update`, on any
other lane it is the identity. -/
theorem world_update_visible_band (w : World) (dt camera_y : ℚ) (r : ℤ)
    (L : Lane) (h : w.lanes r = some L) :
    (visibleRow L.row camera_y = true →
        (w.update dt camera_y).lanes r = some (L.update dt))
      ∧ (visibleRow L.row camera_y = false →
          (w.update dt camera_y).lanes r = some L)
      ∧ (L.kind = "road" →
          (L.update dt).cars = L.cars.map (fun c => c.update dt))
      ∧ (L.kind ≠ "road" → L.update dt = L) := by
  refine ⟨?_, ?_, ?_, ?_⟩
  · intro hv
    simp [World.update, h, hv]
  · intro hv
    simp [World.update, h, hv]
  · intro hk
    simp [Lane.update, hk]
  · intro hk
    simp [Lane.update, hk]

/-- A road lane sitting at row 5, inside the visible band for camera 0. -/
def wit9Lane : Lane := ⟨5, "road", 9, List.replicate 9 false, [⟨0, 48, 100, 1⟩]⟩

/-- A world whose only materialized lane is `wit9Lane` at row 5. -/
def wit9World : World :=
  { cols := 9, lanes := fun r => if r = 5 then some wit9Lane else none,
    generated_max := 40, next_road_start := 41, road_remaining := 0,
    rng := ⟨3⟩, path_col := 4 }

/-- Witness for C9 (amended): the visible road lane at row 5 is advanced. -/
theorem world_update_visible_band_witness :
    (wit9World.update 1 0).lanes 5 = some (wit9Lane.update 1)
      ∧ (wit9Lane.update 1).cars = wit9Lane.cars.map (fun c => c.update 1) := by
  have h : wit9World.lanes 5 = some wit9Lane := rfl
  have hv : visibleRow wit9Lane.row 0 = true := by
    norm_num [visibleRow, rowToScreenY, wit9Lane, HEIGHT, TILE, ROWS_VISIBLE]
  exact ⟨(world_update_visible_band wit9World 1 0 5 wit9Lane h).1 hv,
    (world_update_visible_band wit9World 1 0 5 wit9Lane h).2.2.1 rfl⟩

/-- A road lane at row 20, outside the visible band for camera 0. -/
def cex9Lane : Lane := ⟨20, "road", 9, List.replicate 9 false, [⟨0, 48, 100, 1⟩]⟩

/-- A world whose only materialized lane is `cex9Lane` at row 20. -/
def cex9World : World :=
  { cols := 9, lanes := fun r => if r = 20 then some cex9Lane else none,
    generated_max := 40, next_road_start := 41, road_remaining := 0,
    rng := ⟨3⟩, path_col := 4 }

/-- C9 counterexample: the materialized road lane at row 20 is off screen
for camera 0, so `World.update 1 0` leaves its single car at `x = 0`
even though advancing it would move it to `x = 100`: not every
materialized hazard lane is advanced. -/
theorem update_skips_offscreen_cex :
    cex9World.lanes 20 = some cex9Lane
      ∧ cex9Lane.kind = "road"
      ∧ (cex9World.update 1 0).lanes 20 = some cex9Lane
      ∧ ((⟨0, 48, 100, 1⟩ : Car).update 1).x = 100 := by
  refine ⟨rfl, rfl, ?_, ?_⟩
  · have hv : visibleRow cex9Lane.row 0 = false := by
      norm_num [visibleRow, rowToScreenY, cex9Lane, HEIGHT, TILE, ROWS_VISIBLE]
    have h : cex9World.lanes 20 = some cex9Lane := rfl
    simp [World.update, h, hv]
  · norm_num [Car.update, WIDTH, TILE, COLS]

/-! ### Claim C6: the hazard-run scheduler -/

theorem if_lt_eq_max (a b : ℤ) : (if a < b then b else a) = max a b := by
  split_ifs with h
  · exact (max_eq_right (le_of_lt h)).symm
  · exact (max_eq_left (by omega)).symm

theorem scheduleNext_nrs (w : World) (current : ℤ) :
    (scheduleNext w current).next_road_start
      = max (current + max 2 (ROAD_EVERY_APPROX
          + (w.rng.randint (-ROAD_JITTER) ROAD_JITTER).1)) SAFE_START_ROWS := by
  simp only [scheduleNext]
  exact if_lt_eq_max _ _

/-- C6: for rows at or above the safe-start threshold, `_make_lane`
decides the kind exactly as specified: an ongoing run forces `road` and
decrements the counter leaving everything else untouched; a due start
(`row ≥ next_road_start`) begins a run of length drawn from
`[ROAD_SEGMENT_MIN, ROAD_SEGMENT_MAX]`, consumes one unit immediately and
reschedules `next_road_start` to `row + max 2 (PERIOD + jitter)` clamped
to at least the safe-start threshold; otherwise the row is grass. -/
theorem scheduler_state_machine (w : World) (row : ℤ)
    (hrow : SAFE_START_ROWS ≤ row) :
    (0 < w.road_remaining →
        (mkLaneW w row).2.kind = "road"
          ∧ (mkLaneW w row).1.road_remaining = w.road_remaining - 1
          ∧ (mkLaneW w row).1.next_road_start = w.next_road_start
          ∧ (mkLaneW w row).1.rng = w.rng
          ∧ (mkLaneW w row).1.path_col = w.path_col)
      ∧ (w.road_remaining ≤ 0 → w.next_road_start ≤ row →
          (mkLaneW w row).2.kind = "road"
            ∧ ∃ len jit, ROAD_SEGMENT_MIN ≤ len ∧ len ≤ ROAD_SEGMENT_MAX
                ∧ (mkLaneW w row).1.road_remaining = len - 1
                ∧ -ROAD_JITTER ≤ jit ∧ jit ≤ ROAD_JITTER
                ∧ (mkLaneW w row).1.next_road_start
                    = max (row + max 2 (ROAD_EVERY_APPROX + jit)) SAFE_START_ROWS)
      ∧ (w.road_remaining ≤ 0 → row < w.next_road_start →
          (mkLaneW w row).2.kind = "grass") := by
  have hns : ¬row < SAFE_START_ROWS := by omega
  refine ⟨?_, ?_, ?_⟩
  · intro hrem
    simp only [mkLaneW]
    rw [if_neg hns, if_pos hrem]
    exact ⟨mkLane_kind _ _ _ _ _, rfl, rfl, rfl, rfl⟩
  · intro hrem hdue
    simp only [mkLaneW]
    rw [if_neg hns, if_neg (by omega), if_pos hdue]
    dsimp only
    refine ⟨mkLane_kind _ _ _ _ _,
      (w.rng.randint ROAD_SEGMENT_MIN ROAD_SEGMENT_MAX).1,
      ((w.rng.randint ROAD_SEGMENT_MIN ROAD_SEGMENT_MAX).2.randint
        (-ROAD_JITTER) ROAD_JITTER).1,
      (RNG.randint_mem _ _ _ (by decide)).1,
      (RNG.randint_mem _ _ _ (by decide)).2, rfl,
      (RNG.randint_mem _ _ _ (by decide)).1,
      (RNG.randint_mem _ _ _ (by decide)).2, ?_⟩
    exact scheduleNext_nrs _ row
  · intro hrem hnot
    simp only [mkLaneW]
    rw [if_neg hns, if_neg (by omega), if_neg (by omega)]
    dsimp only
    exact mkLane_kind _ _ _ _ _

/-- A world state in the middle of a hazard run (two rows remaining). -/
def wit6World : World :=
  { cols := 9, lanes := fun _ => none, generated_max := 9,
    next_road_start := 15, road_remaining := 2, rng := ⟨7⟩, path_col := 4 }

/-- Witness for C6 at a concrete mid-run world state and row 10. -/
theorem scheduler_state_machine_witness :
    (mkLaneW wit6World 10).2.kind = "road"
      ∧ (mkLaneW wit6World 10).1.road_remaining = wit6World.road_remaining - 1
      ∧ (mkLaneW wit6World 10).1.next_road_start = wit6World.next_road_start
      ∧ (mkLaneW wit6World 10).1.rng = wit6World.rng
      ∧ (mkLaneW wit6World 10).1.path_col = wit6World.path_col :=
  (scheduler_state_machine wit6World 10 (by decide)).1 (by decide)

/-! ### Lemmas about the `ensure_range` loops -/

theorem genLoop_keeps : ∀ (n : ℕ) (w : World) (r j : ℤ) (L : Lane),
    w.lanes j = some L → (genLoop w r n).lanes j = some L := by
  intro n
  induction n with
  | zero => intro w r j L h; exact h
  | succ n ih =>
    intro w r j L h
    simp only [genLoop]
    apply ih
    by_cases hp : (w.lanes r).isSome = true
    · rw [if_pos hp]
      exact h
    · rw [if_neg hp]
      dsimp only
      by_cases hj : j = r
      · exact absurd (by rw [← hj, h]; rfl) hp
      · rw [if_neg hj, mkLaneW_lanes]
        exact h

theorem genLoop_covers : ∀ (n : ℕ) (w : World) (r j : ℤ),
    r ≤ j → j < r + n → ((genLoop w r n).lanes j).isSome = true := by
  intro n
  induction n with
  | zero =>
    intro w r j h1 h2
    exfalso
    push_cast at h2
    omega
  | succ n ih =>
    intro w r j h1 h2
    simp only [genLoop]
    by_cases hj : j = r
    · subst hj
      by_cases hp : (w.lanes j).isSome = true
      · rw [if_pos hp]
        rcases Option.isSome_iff_exists.mp hp with ⟨L, hL⟩
        exact Option.isSome_iff_exists.mpr ⟨L, genLoop_keeps n _ _ _ _ hL⟩
      · rw [if_neg hp]
        have hins : ((fun j' => if j' = j then some (mkLaneW w j).2
            else (mkLaneW w j).1.lanes j') j) = some (mkLaneW w j).2 := by
          simp
        exact Option.isSome_iff_exists.mpr ⟨_, genLoop_keeps n _ _ _ _ hins⟩
    · have h1' : r + 1 ≤ j := by omega
      have h2' : j < (r + 1) + (n : ℤ) := by push_cast at h2 ⊢; omega
      by_cases hp : (w.lanes r).isSome = true
      · rw [if_pos hp]
        exact ih _ _ _ h1' h2'
      · rw [if_neg hp]
        exact ih _ _ _ h1' h2'

theorem genLoop_gm_mono : ∀ (n : ℕ) (w : World) (r : ℤ),
    w.generated_max ≤ (genLoop w r n).generated_max := by
  intro n
  induction n with
  | zero => intro w r; exact le_refl _
  | succ n ih =>
    intro w r
    simp only [genLoop]
    by_cases hp : (w.lanes r).isSome = true
    · rw [if_pos hp]
      refine le_trans ?_ (ih _ (r + 1))
      exact le_max_left _ _
    · rw [if_neg hp]
      refine le_trans ?_ (ih _ (r + 1))
      show w.generated_max ≤ max (mkLaneW w r).1.generated_max r
      rw [mkLaneW_generated_max]
      exact le_max_left _ _

theorem genLoop_gm_ge : ∀ (n : ℕ) (w : World) (r : ℤ), 0 < n →
    r + (n : ℤ) - 1 ≤ (genLoop w r n).generated_max := by
  intro n
  induction n with
  | zero => intro w r h; exact absurd h (by omega)
  | succ n ih =>
    intro w r _
    simp only [genLoop]
    rcases Nat.eq_zero_or_pos n with hn | hn
    · subst hn
      simp only [genLoop]
      refine le_trans ?_ (le_max_right _ _)
      push_cast
      omega
    · refine le_trans ?_ (ih _ (r + 1) hn)
      push_cast
      omega

theorem backfillLoop_keeps : ∀ (n : ℕ) (w : World) (r j : ℤ) (L : Lane),
    w.lanes j = some L → (backfillLoop w r n).lanes j = some L := by
  intro n
  induction n with
  | zero => intro w r j L h; exact h
  | succ n ih =>
    intro w r j L h
    simp only [backfillLoop]
    apply ih
    by_cases hp : (w.lanes r).isSome = true
    · rw [if_pos hp]
      exact h
    · rw [if_neg hp]
      dsimp only
      by_cases hj : j = r
      · exact absurd (by rw [← hj, h]; rfl) hp
      · rw [if_neg hj]
        exact h

theorem backfillLoop_covers : ∀ (n : ℕ) (w : World) (r j : ℤ),
    r ≤ j → j < r + n → ((backfillLoop w r n).lanes j).isSome = true := by
  intro n
  induction n with
  | zero =>
    intro w r j h1 h2
    exfalso
    push_cast at h2
    omega
  | succ n ih =>
    intro w r j h1 h2
    simp only [backfillLoop]
    by_cases hj : j = r
    · subst hj
      by_cases hp : (w.lanes j).isSome = true
      · rw [if_pos hp]
        rcases Option.isSome_iff_exists.mp hp with ⟨L, hL⟩
        exact Option.isSome_iff_exists.mpr ⟨L, backfillLoop_keeps n _ _ _ _ hL⟩
      · rw [if_neg hp]
        have hins : ((fun j' => if j' = j
            then some (mkLane j w.cols "grass" (seedFor j 0x123456) (some w.path_col))
            else w.lanes j') j)
            = some (mkLane j w.cols "grass" (seedFor j 0x123456) (some w.path_col)) := by
          simp
        exact Option.isSome_iff_exists.mpr ⟨_, backfillLoop_keeps n _ _ _ _ hins⟩
    · have h1' : r + 1 ≤ j := by omega
      have h2' : j < (r + 1) + (n : ℤ) := by push_cast at h2 ⊢; omega
      by_cases hp : (w.lanes r).isSome = true
      · rw [if_pos hp]
        exact ih _ _ _ h1' h2'
      · rw [if_neg hp]
        exact ih _ _ _ h1' h2'

theorem resetWorld_lanes (w : World) (m : ℤ) : (resetWorld w m).lanes = w.lanes := rfl

theorem ensureRangeFrom_keeps (w : World) (low high r : ℤ) (L : Lane)
    (h : w.lanes r = some L) (h1 : low - 2 ≤ r) (h2 : r ≤ high + 2) :
    (w.ensureRangeFrom low high).lanes r = some L := by
  simp only [World.ensureRangeFrom]
  rw [if_pos ⟨h1, h2⟩]
  exact backfillLoop_keeps _ _ _ _ _ (genLoop_keeps _ _ _ _ _ h)

theorem ensureRangeFrom_outside (w : World) (low high r : ℤ)
    (hr : r < low - 2 ∨ high + 2 < r) :
    (w.ensureRangeFrom low high).lanes r = none := by
  simp only [World.ensureRangeFrom]
  exact if_neg (by omega)

theorem ensureRangeFrom_covers (w : World) (low high r : ℤ) (hlh : low ≤ high)
    (hr1 : low ≤ r) (hr2 : r ≤ high) :
    ((w.ensureRangeFrom low high).lanes r).isSome = true := by
  simp only [World.ensureRangeFrom]
  rw [if_pos (by omega)]
  have hgm : high ≤ (genLoop w (max (w.generated_max + 1) low)
      (high + 1 - max (w.generated_max + 1) low).toNat).generated_max := by
    by_cases hs : max (w.generated_max + 1) low ≤ high
    · have hn : 0 < (high + 1 - max (w.generated_max + 1) low).toNat := by omega
      refine le_trans ?_ (genLoop_gm_ge _ _ _ hn)
      omega
    · have hn : (high + 1 - max (w.generated_max + 1) low).toNat = 0 := by omega
      rw [hn]
      show high ≤ w.generated_max
      rcases max_choice (w.generated_max + 1) low with hm | hm <;> rw [hm] at hs <;> omega
  rw [min_eq_left hgm]
  exact backfillLoop_covers _ _ _ _ hr1 (by omega)

/-! ### Claim C2: windowing -/

/-- C2: after `ensure_range(low, high)` with `low ≤ high`, every row in
`[low, high]` is materialized and every row below `low - 2` or above
`high + 2` is absent. -/
theorem ensureRange_window (w : World) (low high r : ℤ) (hlh : low ≤ high) :
    (low ≤ r → r ≤ high → ((w.ensureRange low high).lanes r).isSome = true)
      ∧ (r < low - 2 → (w.ensureRange low high).lanes r = none)
      ∧ (high + 2 < r → (w.ensureRange low high).lanes r = none) := by
  have heq : w.ensureRange low high
      = (if w.generated_max < low - 50 then resetWorld w low
          else w).ensureRangeFrom low high := rfl
  rw [heq]
  refine ⟨?_, ?_, ?_⟩
  · intro h1 h2
    exact ensureRangeFrom_covers _ low high r hlh h1 h2
  · intro h
    exact ensureRangeFrom_outside _ low high r (Or.inl h)
  · intro h
    exact ensureRangeFrom_outside _ low high r (Or.inr h)

/-- Witness for C2 on the freshly constructed world, window `[0, 2]`. -/
theorem ensureRange_window_witness :
    (((mkWorld 9).ensureRange 0 2).lanes 1).isSome = true
      ∧ ((mkWorld 9).ensureRange 0 2).lanes (-5) = none
      ∧ ((mkWorld 9).ensureRange 0 2).lanes 10 = none :=
  ⟨(ensureRange_window (mkWorld 9) 0 2 1 (by omega)).1 (by omega) (by omega),
   (ensureRange_window (mkWorld 9) 0 2 (-5) (by omega)).2.1 (by omega),
   (ensureRange_window (mkWorld 9) 0 2 10 (by omega)).2.2 (by omega)⟩

/-! ### Claim C10: ensure_range never replaces a present lane -/

/-- C10: a lane present before `ensure_range(low, high)` at a row inside
the retention window `[low - 2, high + 2]` is still present, unchanged,
afterwards: both generation loops skip rows that are already present and
eviction only removes rows outside the window. -/
theorem ensureRange_preserves_lanes (w : World) (low high r : ℤ) (L : Lane)
    (h : w.lanes r = some L) (h1 : low - 2 ≤ r) (h2 : r ≤ high + 2) :
    (w.ensureRange low high).lanes r = some L := by
  have heq : w.ensureRange low high
      = (if w.generated_max < low - 50 then resetWorld w low
          else w).ensureRangeFrom low high := rfl
  rw [heq]
  by_cases ht : w.generated_max < low - 50
  · rw [if_pos ht]
    refine ensureRangeFrom_keeps _ low high r L ?_ h1 h2
    rw [resetWorld_lanes]
    exact h
  · rw [if_neg ht]
    exact ensureRangeFrom_keeps _ low high r L h h1 h2

/-- A grass lane handcrafted at row 1. -/
def wit10Lane : Lane := ⟨1, "grass", 9, List.replicate 9 false, []⟩

/-- A world whose only materialized lane is `wit10Lane` at row 1. -/
def wit10World : World :=
  { cols := 9, lanes := fun r => if r = 1 then some wit10Lane else none,
    generated_max := 3, next_road_start := 7, road_remaining := 0,
    rng := ⟨11⟩, path_col := 4 }

/-- Witness for C10: the present lane at row 1 survives
`ensure_range(0, 2)` bit-identically. -/
theorem ensureRange_preserves_lanes_witness :
    (wit10World.ensureRange 0 2).lanes 1 = some wit10Lane :=
  ensureRange_preserves_lanes wit10World 0 2 1 wit10Lane rfl (by omega) (by omega)

/-! ### Claim C5: safe-start rows are always grass -/

/-- Every materialized lane below the safe-start threshold is grass. -/
def SafeStartInv (w : World) : Prop :=
  ∀ r L, w.lanes r = some L → r < SAFE_START_ROWS → L.kind = "grass"

theorem mkLaneW_safe (w : World) (row : ℤ) (h : row < SAFE_START_ROWS) :
    (mkLaneW w row).2.kind = "grass" := by
  simp only [mkLaneW]
  rw [if_pos h]
  exact mkLane_kind _ _ _ _ _

theorem genLoop_safe : ∀ (n : ℕ) (w : World) (r : ℤ),
    SafeStartInv w → SafeStartInv (genLoop w r n) := by
  intro n
  induction n with
  | zero => intro w r hw; exact hw
  | succ n ih =>
    intro w r hw
    simp only [genLoop]
    apply ih
    intro j L hjL hj
    by_cases hp : (w.lanes r).isSome = true
    · rw [if_pos hp] at hjL
      exact hw j L hjL hj
    · rw [if_neg hp] at hjL
      dsimp only at hjL
      by_cases hjr : j = r
      · subst hjr
        rw [if_pos rfl] at hjL
        injection hjL with hL
        rw [← hL]
        exact mkLaneW_safe w j hj
      · rw [if_neg hjr, mkLaneW_lanes] at hjL
        exact hw j L hjL hj

theorem backfillLoop_safe : ∀ (n : ℕ) (w : World) (r : ℤ),
    SafeStartInv w → SafeStartInv (backfillLoop w r n) := by
  intro n
  induction n with
  | zero => intro w r hw; exact hw
  | succ n ih =>
    intro w r hw
    simp only [backfillLoop]
    apply ih
    intro j L hjL hj
    by_cases hp : (w.lanes r).isSome = true
    · rw [if_pos hp] at hjL
      exact hw j L hjL hj
    · rw [if_neg hp] at hjL
      dsimp only at hjL
      by_cases hjr : j = r
      · subst hjr
        rw [if_pos rfl] at hjL
        injection hjL with hL
        rw [← hL]
        exact mkLane_kind _ _ _ _ _
      · rw [if_neg hjr] at hjL
        exact hw j L hjL hj

theorem ensureRangeFrom_safe (w : World) (low high : ℤ) (hw : SafeStartInv w) :
    SafeStartInv (w.ensureRangeFrom low high) := by
  intro j L hjL hj
  simp only [World.ensureRangeFrom] at hjL
  by_cases hkeep : low - 2 ≤ j ∧ j ≤ high + 2
  · rw [if_pos hkeep] at hjL
    exact backfillLoop_safe _ _ _ (genLoop_safe _ _ _ hw) j L hjL hj
  · rw [if_neg hkeep] at hjL
    cases hjL

/-- C5: if every materialized lane below `SAFE_START_ROWS` is grass, then
after any `ensure_range` call the lane at any row `r < SAFE_START_ROWS`
is still either absent or grass — both `_make_lane` and the backfill
fallback force grass below the threshold. -/
theorem safe_start_rows_open (w : World) (low high r : ℤ)
    (hw : SafeStartInv w) (hr : r < SAFE_START_ROWS) :
    kindAt (w.ensureRange low high) r = none
      ∨ kindAt (w.ensureRange low high) r = some "grass" := by
  have heq : w.ensureRange low high
      = (if w.generated_max < low - 50 then resetWorld w low
          else w).ensureRangeFrom low high := rfl
  have hsafe : SafeStartInv (w.ensureRange low high) := by
    rw [heq]
    by_cases ht : w.generated_max < low - 50
    · rw [if_pos ht]
      refine ensureRangeFrom_safe _ low high ?_
      intro j L hjL hj
      rw [resetWorld_lanes] at hjL
      exact hw j L hjL hj
    · rw [if_neg ht]
      exact ensureRangeFrom_safe _ low high hw
  rcases hE : (w.ensureRange low high).lanes r with _ | L
  · left
    simp [kindAt, hE]
  · right
    simp only [kindAt, hE, Option.map_some']
    rw [hsafe r L hE hr]

/-- Witness for C5 on the freshly constructed world, row 2. -/
theorem safe_start_rows_open_witness :
    kindAt ((mkWorld 9).ensureRange 0 3) 2 = none
      ∨ kindAt ((mkWorld 9).ensureRange 0 3) 2 = some "grass" :=
  safe_start_rows_open (mkWorld 9) 0 3 2
    (by intro r L h hr; simp [mkWorld, scheduleNext] at h) (by decide)

/-! ### Claim C3: the reset rule -/

/-- C3 (amended): the reset in `ensure_range(low, high)` fires when `low`
is more than 50 rows ahead of `generated_max`, not behind it; it resets
the scheduler, rng and path column to the safe-start baseline and sets
`generated_max` to `low - 1` so generation restarts at `low`; it does not
itself clear the materialized lanes (eviction at the end of the call
removes those outside `[low - 2, high + 2]`); and the post-reset state is
independent of the previous scheduler/rng/path state. -/
theorem ensureRange_forward_reset (w w2 : World) (low high r : ℤ)
    (htrig : w.generated_max < low - 50)
    (hc : w2.cols = w.cols) (hl : w2.lanes = w.lanes) :
    w.ensureRange low high = (resetWorld w low).ensureRangeFrom low high
      ∧ (resetWorld w low).generated_max = low - 1
      ∧ (resetWorld w low).road_remaining = 0
      ∧ (resetWorld w low).path_col = (w.cols : ℤ) / 2
      ∧ (resetWorld w low).lanes = w.lanes
      ∧ resetWorld w2 low = resetWorld w low
      ∧ (r < low - 2 → (w.ensureRange low high).lanes r = none) := by
  have heq : w.ensureRange low high
      = (if w.generated_max < low - 50 then resetWorld w low
          else w).ensureRangeFrom low high := rfl
  refine ⟨?_, rfl, rfl, rfl, rfl, ?_, ?_⟩
  · rw [heq, if_pos htrig]
  · simp only [resetWorld, scheduleNext, hc, hl]
  · intro hr
    rw [heq, if_pos htrig]
    exact ensureRangeFrom_outside _ low high r (Or.inl hr)

/-- A world whose generator state is far from baseline, used to witness
the reset. -/
def wit3World : World :=
  { cols := 9, lanes := fun _ => none, generated_max := -999999,
    next_road_start := 321, road_remaining := 5, rng := ⟨777⟩, path_col := 1 }

/-- `wit3World` with a different rng and path column but the same columns
and lanes. -/
def wit3WorldB : World := { wit3World with rng := ⟨888⟩, path_col := 7 }

/-- Witness for C3 (amended): the first `ensure_range(0, 1)` call on a
fresh-but-perturbed generator state triggers the reset. -/
theorem ensureRange_forward_reset_witness :
    wit3World.ensureRange 0 1 = (resetWorld wit3World 0).ensureRangeFrom 0 1
      ∧ (resetWorld wit3World 0).generated_max = -1
      ∧ (resetWorld wit3World 0).road_remaining = 0
      ∧ (resetWorld wit3World 0).path_col = (wit3World.cols : ℤ) / 2
      ∧ (resetWorld wit3World 0).lanes = wit3World.lanes
      ∧ resetWorld wit3WorldB 0 = resetWorld wit3World 0
      ∧ ((-9 : ℤ) < 0 - 2 → (wit3World.ensureRange 0 1).lanes (-9) = none) := by
  have h := ensureRange_forward_reset wit3World wit3WorldB 0 1 (-9)
    (by decide) rfl rfl
  exact ⟨h.1, h.2.1, h.2.2.1, h.2.2.2.1, h.2.2.2.2.1, h.2.2.2.2.2.1,
    h.2.2.2.2.2.2⟩

/-- A grass lane handcrafted at row 35. -/
def cex3Lane : Lane := ⟨35, "grass", 9, List.replicate 9 false, []⟩

/-- A reachable-looking generator state: generation has advanced to row
90, a lane is materialized at row 35, and the path column has wandered
to 0. -/
def cex3World : World :=
  { cols := 9, lanes := fun r => if r = 35 then some cex3Lane else none,
    generated_max := 90, next_road_start := 92, road_remaining := 0,
    rng := ⟨555⟩, path_col := 0 }

/-- C3 counterexample: calling `ensure_range(30, 35)` with `low = 30`
regressed 60 rows behind `generated_max = 90` (more than the fixed margin
of 50) performs no reset at all: the scheduler state, rng and path column
survive unchanged (a reset would have restored `path_col` to
`cols // 2 = 4` and reseeded the rng), and the previously materialized
lane at row 35 is still there. -/
theorem ensureRange_no_backward_reset_cex :
    cex3World.generated_max - 30 > 50
      ∧ (cex3World.ensureRange 30 35).path_col = 0
      ∧ (cex3World.ensureRange 30 35).next_road_start = 92
      ∧ (cex3World.ensureRange 30 35).rng = ⟨555⟩
      ∧ (cex3World.ensureRange 30 35).lanes 35 = some cex3Lane
      ∧ (resetWorld cex3World 30).path_col = 4 :=
  ⟨by decide, rfl, rfl, rfl, rfl, rfl⟩

end Crossy
